import Mathlib

/-!
Verification of the digit-drawing application's worker bridge.

Shallow embedding of the core logic of the `ml_digits` repository:
the image normalizers, the neural-path worker loop (`_tf_worker`),
the result-listener thread (`tf_result_waiter`), the prediction
coordinator state machine of `MainWindow` (pending flags, idle
callbacks, snapshot sends), and the application shutdown handshake.

Python floats are modelled by `ℚ`; every arithmetic operation used by
the code (`(~b & 0xFF) / 16.0`, `(~b & 0xFF) / 255.0`, floor division
`// 16.0`) is exact on the values involved, so no rounding is lost by
this choice.  Bitmaps are byte lists; the external PIL resize /
grayscale conversion and the two opaque model backends are parameters.
-/

set_option autoImplicit false

namespace MlDigits

/-- Python's `~b & 0xFF` applied to a byte value `b`: bitwise complement
on arbitrary-precision integers followed by masking the low byte, i.e.
`(-b - 1) mod 256`. -/
def pyInvMask (b : Nat) : Nat := ((-(b : Int) - 1) % 256).toNat

/-- For an actual byte (`b ≤ 255`), `~b & 0xFF` is `255 - b`. -/
theorem pyInvMask_eq (b : Nat) (hb : b ≤ 255) : pyInvMask b = 255 - b := by
  unfold pyInvMask
  omega

/-- The value `~b & 0xFF` is always at most 255, whatever the integer `b`. -/
theorem pyInvMask_le (b : Nat) : pyInvMask b ≤ 255 := by
  unfold pyInvMask
  omega

/-- The `src/main.py` statistical-path normalizer
(`_update_sklearn_prediction`): `[(~b & 0xFF) / 16.0 for b in bytes]`. -/
def normalizeSK (bytes : List Nat) : List ℚ :=
  bytes.map (fun b => (pyInvMask b : ℚ) / 16)

/-- The `src/main.py` neural-path normalizer (`_tf_worker`):
`[(~b & 0xFF) / 255.0 for b in bytes]`. -/
def normalizeTF (bytes : List Nat) : List ℚ :=
  bytes.map (fun b => (pyInvMask b : ℚ) / 255)

/-- The `src/draw_digits/main.py` statistical normalizer
(`_update_prediction`): `[(~b & 0xFF) // 16.0 for b in bytes]` — note
the Python FLOOR division `//`, which yields `⌊(255 - b) / 16⌋` as a
float. -/
def normalizeDD (bytes : List Nat) : List ℚ :=
  bytes.map (fun b => ((⌊(pyInvMask b : ℚ) / 16⌋ : ℤ) : ℚ))

theorem normalizeSK_nonneg (bytes : List Nat) :
    ∀ f ∈ normalizeSK bytes, 0 ≤ f := by
  intro f hf
  simp only [normalizeSK, List.mem_map] at hf
  obtain ⟨b, _, rfl⟩ := hf
  positivity

theorem normalizeTF_nonneg (bytes : List Nat) :
    ∀ f ∈ normalizeTF bytes, 0 ≤ f := by
  intro f hf
  simp only [normalizeTF, List.mem_map] at hf
  obtain ⟨b, _, rfl⟩ := hf
  positivity

/-! ## Bitmaps and the worker loop (`_tf_worker`) -/

/-- A raw RGBA bitmap snapshot: width, height and pixel byte buffer —
what `get_image_data` returns and what travels on the pipe. -/
structure Surface where
  width : Int
  height : Int
  bytes : List Nat
deriving DecidableEq, Repr

/-- One worker iteration body on a received snapshot, from `_tf_worker`:
resize to 28×28, convert to grayscale, normalize with scale 255, skip
inference when no value is positive, and build the reply
`(image_28x28, predicted_digits)`.  PIL's resize and grayscale
conversion are the opaque parameters `resize28` and `gray`; `predict`
is the opaque backend.  The second component counts backend
invocations. -/
def tfWorkerStep (predict : List ℚ → List ℚ) (resize28 : Surface → Surface)
    (gray : Surface → List Nat) (img : Surface) :
    (Surface × Option (List ℚ)) × Nat :=
  let preview := resize28 img
  let data := normalizeTF (gray preview)
  if data.any (fun f => decide (0 < f)) then
    ((preview, some (predict data)), 1)
  else
    ((preview, none), 0)

/-- The worker receive loop of `_tf_worker`, run over the finite trace
of messages delivered on the inbound pipe (`none` is the Python `None`
termination sentinel).  Returns the list of messages sent on the
outbound pipe (`none` being the final sentinel acknowledgment), the
number of backend invocations, and the number of `conn.recv()` calls
that returned. -/
def tfWorkerRun (predict : List ℚ → List ℚ) (resize28 : Surface → Surface)
    (gray : Surface → List Nat) :
    List (Option Surface) → List (Option (Surface × Option (List ℚ))) × Nat × Nat
  | [] => ([], 0, 0)
  | none :: _ => ([none], 0, 1)
  | some img :: rest =>
      let step := tfWorkerStep predict resize28 gray img
      let r := tfWorkerRun predict resize28 gray rest
      (some step.1 :: r.1, step.2 + r.2.1, r.2.2 + 1)

/-- The whole `_tf_worker(conn, model_engine)` entry point: dispatch on
the `model_engine` string, falling through to an immediate `return`
(no receive, no send) for any engine other than `"tf"` and `"ov"`. -/
def tfWorker (tfPredict ovPredict : List ℚ → List ℚ)
    (resize28 : Surface → Surface) (gray : Surface → List Nat)
    (model_engine : String) (inbox : List (Option Surface)) :
    List (Option (Surface × Option (List ℚ))) × Nat × Nat :=
  if model_engine = "tf" then tfWorkerRun tfPredict resize28 gray inbox
  else if model_engine = "ov" then tfWorkerRun ovPredict resize28 gray inbox
  else ([], 0, 0)

/-- Model of `DrawingApp.on_shutdown`: the lifecycle manager sends the `None`
termination sentinel after whatever snapshots are still queued, then
joins the worker process.  The result is the complete inbound trace
the worker sees. -/
def on_shutdown (queued : List Surface) : List (Option Surface) :=
  queued.map some ++ [none]

/-- The `src/main.py` statistical inference body: skip the classifier when
every normalized float is zero (`if not all(f == 0 ...)`), else call
`clf.predict`.  Returns the label shown (`none` = "no prediction") and
the number of classifier invocations. -/
def sklearnInfer (clf : List ℚ → Nat) (floats : List ℚ) : Option Nat × Nat :=
  if (floats.all (fun f => decide (f = 0))) = false then
    (some (clf floats), 1)
  else
    (none, 0)

/-! ## Result listener (`MainWindow.tf_result_waiter`)

The listener loop body is: check `is_waiting_tf_result`; `poll(0.01)`
— a bounded 10 ms poll, never an unbounded block — and `continue` on
timeout; `recv()`; `break` on the `None` sentinel; otherwise
`GLib.idle_add(self._on_tf_prediction, result)`.  We model one loop
iteration per "tick": a tick carries the flag value the iteration
reads (the UI thread clears it in `do_close_request`) and the poll
outcome (`none` = timeout, `some m` = message `m` received, with
`m = none` the worker's sentinel). -/

/-- The result type carried on the outbound pipe: `(image, digits)`. -/
abbrev TFResult := Surface × Option (List ℚ)

/-- One listener tick: the `is_waiting_tf_result` value read at the
`while` check, and what `poll`/`recv` yields this iteration. -/
abbrev ListenerTick := Bool × Option (Option TFResult)

/-- The listener loop `tf_result_waiter` over a finite tick trace.  Returns the list of
results marshaled onto the UI task queue via `GLib.idle_add` (in
order), and whether the loop has terminated by the end of the trace. -/
def tf_result_waiter : List ListenerTick → List TFResult × Bool
  | [] => ([], false)
  | (false, _) :: _ => ([], true)
  | (true, none) :: rest => tf_result_waiter rest
  | (true, some none) :: _ => ([], true)
  | (true, some (some r)) :: rest =>
      let t := tf_result_waiter rest
      (r :: t.1, t.2)

/-- A tick on which the listener exits: the stop flag was observed
cleared, or the received message was the termination sentinel. -/
def listenerExits (t : ListenerTick) : Bool :=
  !t.1 || decide (t.2 = some none)

/-- The result marshaled by a tick, when the tick neither exits nor
times out. -/
def tickResult (t : ListenerTick) : Option TFResult :=
  match t with
  | (true, some (some r)) => some r
  | _ => none

/-! ## The prediction coordinator (`MainWindow`) as a state machine -/

/-- The white RGBA buffer `clear` paints (cairo source 1.0,1.0,1.0 on
ARGB32: every byte 255). -/
def blankBytes (w h : Int) : List Nat :=
  List.replicate (4 * (w.toNat * h.toNat)) 255

/-- The coordinator-relevant state of `MainWindow`: the cairo surface
(or `None` before the first resize), the two pending flags, the number
of sklearn idle callbacks queued by `GLib.idle_add` and not yet run,
and the number of neural requests sent but not yet answered (a ghost
counter for the in-flight invariant). -/
structure UIState where
  surface : Option Surface
  skPending : Bool
  skSched : Nat
  tfPending : Bool
  tfInFlight : Nat
deriving DecidableEq, Repr

/-- State after `MainWindow.__init__`: no surface yet, both pending
flags false, nothing scheduled or in flight. -/
def initState : UIState := ⟨none, false, 0, false, 0⟩

/-- Observable effects of one event: snapshots sent on the request
pipe, the sklearn label presentation update (if any; inner `none` is
the "no prediction" display), and sklearn classifier invocations. -/
structure StepOut where
  sends : List Surface
  skLabel : Option (Option Nat)
  skInfers : Nat
deriving DecidableEq, Repr

def noOut : StepOut := ⟨[], none, 0⟩

/-- Model of `MainWindow.get_image_data`: `None` when there is no surface, else
the surface's byte buffer with its dimensions. -/
def get_image_data (s : UIState) : Option Surface := s.surface

/-- Model of `MainWindow.update_prediction`: the statistical path schedules the
deferred callback unless already pending; the neural path, unless
already pending, sets its flag, captures a snapshot (resetting the
flag and bailing out when there is none) and sends it on the request
pipe.  Returns the new state and the snapshots sent. -/
def update_prediction (s : UIState) : UIState × List Surface :=
  let s1 := if s.skPending then s
            else { s with skPending := true, skSched := s.skSched + 1 }
  if s1.tfPending then (s1, [])
  else
    let s2 := { s1 with tfPending := true }
    match get_image_data s2 with
    | none => ({ s2 with tfPending := false }, [])
    | some img => ({ s2 with tfInFlight := s2.tfInFlight + 1 }, [img])

/-- The deferred `_update_sklearn_prediction` callback, run from the
idle queue: consume the queued callback; return immediately if the
snapshot getter yields `None` (leaving `_sklearn_prediction_pending`
untouched); otherwise normalize the grayscale 8×8 bytes (`gray8`
stands for PIL's resize + convert), infer per `sklearnInfer`, update
the label, and clear the pending flag. -/
def run_sk_callback (clf : List ℚ → Nat) (gray8 : Surface → List Nat)
    (s : UIState) : UIState × StepOut :=
  let s0 := { s with skSched := s.skSched - 1 }
  match get_image_data s0 with
  | none => (s0, noOut)
  | some img =>
      let floats := normalizeSK (gray8 img)
      let r := sklearnInfer clf floats
      ({ s0 with skPending := false }, ⟨[], some r.1, r.2⟩)

/-- Events driving the coordinator: a drawing-area resize, a drag
update (painting strokes, dims unchanged), the Clear button, the idle
queue running the sklearn callback, and a neural result delivered by
the listener to `_on_tf_prediction`. -/
inductive UIEvent where
  | resize (w h : Int)
  | dragUpdate (paint : List Nat → List Nat)
  | clearClicked
  | runSk
  | tfResult

/-- Environment validity of an event in a state: the idle queue only
runs a callback that was scheduled, and the worker only answers an
outstanding request. -/
def validEv (s : UIState) : UIEvent → Prop
  | .runSk => 1 ≤ s.skSched
  | .tfResult => 1 ≤ s.tfInFlight
  | _ => True

/-- One coordinator step.  `_on_resize` rejects non-positive
dimensions, else installs a fresh surface and runs `clear` (paint
white, `update_prediction`).  `_on_drag_update` paints then calls
`update_prediction`.  The Clear button whitens the surface and calls
`update_prediction` (no-op without a surface).  `_on_tf_prediction`
clears the neural pending flag. -/
def uiStep (clf : List ℚ → Nat) (gray8 : Surface → List Nat)
    (s : UIState) : UIEvent → UIState × StepOut
  | .resize w h =>
      if w ≤ 0 ∨ h ≤ 0 then (s, noOut)
      else
        let s1 := { s with surface := some ⟨w, h, blankBytes w h⟩ }
        let r := update_prediction s1
        (r.1, ⟨r.2, none, 0⟩)
  | .dragUpdate paint =>
      let s1 := match s.surface with
        | none => s
        | some img => { s with surface := some ⟨img.width, img.height, paint img.bytes⟩ }
      let r := update_prediction s1
      (r.1, ⟨r.2, none, 0⟩)
  | .clearClicked =>
      match s.surface with
      | none => (s, noOut)
      | some img =>
          let s1 := { s with surface := some ⟨img.width, img.height, blankBytes img.width img.height⟩ }
          let r := update_prediction s1
          (r.1, ⟨r.2, none, 0⟩)
  | .runSk => run_sk_callback clf gray8 s
  | .tfResult => ({ s with tfPending := false, tfInFlight := s.tfInFlight - 1 }, noOut)

/-- Reachable coordinator states: `initState` closed under valid
steps. -/
inductive Reach (clf : List ℚ → Nat) (gray8 : Surface → List Nat) : UIState → Prop where
  | init : Reach clf gray8 initState
  | step (s : UIState) (e : UIEvent) : Reach clf gray8 s → validEv s e →
      Reach clf gray8 (uiStep clf gray8 s e).1

/-- Run a finite event sequence, collecting the total number of sklearn
classifier invocations. -/
def runEvents (clf : List ℚ → Nat) (gray8 : Surface → List Nat)
    (s : UIState) : List UIEvent → UIState × Nat
  | [] => (s, 0)
  | e :: evs =>
      let r := uiStep clf gray8 s e
      let rest := runEvents clf gray8 r.1 evs
      (rest.1, r.2.skInfers + rest.2)

/-- An event sequence each of whose events is valid in the state where
it fires. -/
inductive ValidSeq (clf : List ℚ → Nat) (gray8 : Surface → List Nat) : UIState → List UIEvent → Prop where
  | nil (s : UIState) : ValidSeq clf gray8 s []
  | cons (s : UIState) (e : UIEvent) (evs : List UIEvent) :
      validEv s e → ValidSeq clf gray8 (uiStep clf gray8 s e).1 evs →
      ValidSeq clf gray8 s (e :: evs)

/-! ## Normalizer lemmas -/

theorem normalizeDD_nonneg (bytes : List Nat) :
    ∀ f ∈ normalizeDD bytes, 0 ≤ f := by
  intro f hf
  simp only [normalizeDD, List.mem_map] at hf
  obtain ⟨b, _, rfl⟩ := hf
  have h0 : (0 : ℚ) ≤ (pyInvMask b : ℚ) / 16 := by positivity
  exact_mod_cast Int.floor_nonneg.mpr h0

theorem normalizeSK_le (bytes : List Nat) :
    ∀ f ∈ normalizeSK bytes, f ≤ 255 / 16 := by
  intro f hf
  simp only [normalizeSK, List.mem_map] at hf
  obtain ⟨b, _, rfl⟩ := hf
  have h := pyInvMask_le b
  have h' : (pyInvMask b : ℚ) ≤ 255 := by exact_mod_cast h
  linarith

theorem normalizeTF_le (bytes : List Nat) :
    ∀ f ∈ normalizeTF bytes, f ≤ 255 / 255 := by
  intro f hf
  simp only [normalizeTF, List.mem_map] at hf
  obtain ⟨b, _, rfl⟩ := hf
  have h := pyInvMask_le b
  have h' : (pyInvMask b : ℚ) ≤ 255 := by exact_mod_cast h
  linarith

theorem normalizeDD_le (bytes : List Nat) :
    ∀ f ∈ normalizeDD bytes, f ≤ 255 / 16 := by
  intro f hf
  simp only [normalizeDD, List.mem_map] at hf
  obtain ⟨b, _, rfl⟩ := hf
  have h := pyInvMask_le b
  have h' : (pyInvMask b : ℚ) ≤ 255 := by exact_mod_cast h
  have hfl : ((⌊(pyInvMask b : ℚ) / 16⌋ : ℤ) : ℚ) ≤ (pyInvMask b : ℚ) / 16 :=
    Int.floor_le _
  linarith

/-- For a byte value, `~b & 0xFF` cast to `ℚ` is `255 - b`. -/
theorem pyInvMask_cast (b : Nat) (hb : b ≤ 255) : (pyInvMask b : ℚ) = 255 - b := by
  rw [pyInvMask_eq b hb, Nat.cast_sub hb]
  norm_num

/-- C3 (counterexample): the claim "every normalizer implementation
produces `(255 - b)/scale`" fails for the `src/draw_digits/main.py`
normalizer at byte 254: it uses floor division `// 16.0` and yields
`0`, not `(255 - 254)/16 = 1/16`. -/
theorem normalizer_formula_counterexample :
    normalizeDD [254] ≠ [((255 : ℚ) - 254) / 16] := by
  have h : pyInvMask 254 = 1 := by decide
  simp only [normalizeDD, List.map, h]
  norm_num

/-- C3 (amended): for every grayscale byte `b ≤ 255`, the two
`src/main.py` normalizers produce `(255 - b)/16` and `(255 - b)/255`
respectively, while the `src/draw_digits/main.py` normalizer produces
the floor `⌊(255 - b)/16⌋` because it uses Python floor division
`// 16.0`. -/
theorem normalizer_formula (bytes : List Nat) (hb : ∀ b ∈ bytes, b ≤ 255) :
    normalizeSK bytes = bytes.map (fun b : Nat => ((255 : ℚ) - (b : ℚ)) / 16)
    ∧ normalizeTF bytes = bytes.map (fun b : Nat => ((255 : ℚ) - (b : ℚ)) / 255)
    ∧ normalizeDD bytes = bytes.map (fun b : Nat => ((⌊((255 : ℚ) - (b : ℚ)) / 16⌋ : ℤ) : ℚ)) := by
  refine ⟨?_, ?_, ?_⟩ <;>
    [unfold normalizeSK; unfold normalizeTF; unfold normalizeDD] <;>
    apply List.map_congr_left <;> intro b hmem <;>
    rw [pyInvMask_cast b (hb b hmem)]

/-- Witness for the amended C3 at a concrete byte list. -/
theorem normalizer_formula_witness :
    normalizeSK [0, 254, 255] = [0, 254, 255].map (fun b : Nat => ((255 : ℚ) - (b : ℚ)) / 16)
    ∧ normalizeTF [0, 254, 255] = [0, 254, 255].map (fun b : Nat => ((255 : ℚ) - (b : ℚ)) / 255)
    ∧ normalizeDD [0, 254, 255] =
        [0, 254, 255].map (fun b : Nat => ((⌊((255 : ℚ) - (b : ℚ)) / 16⌋ : ℤ) : ℚ)) :=
  normalizer_formula [0, 254, 255] (by decide)

/-- C5 (counterexample): the claim "an all-black bitmap maps to an
all-`255/scale` FeatureVector in every normalizer implementation"
fails for `src/draw_digits/main.py`: on byte 0 its floor division
gives `⌊255/16⌋ = 15`, not `255/16 = 15.9375`. -/
theorem normalizer_bounds_counterexample :
    normalizeDD [0] ≠ [(255 : ℚ) / 16] := by
  have h : pyInvMask 0 = 255 := by decide
  simp only [normalizeDD, List.map, h]
  norm_num

/-- C5 (amended): every component of every normalizer's output lies in
`[0, 255/scale]`; an all-white buffer (bytes 255) maps to all zeros in
all three normalizers; an all-black buffer (bytes 0) maps to all
`255/16` resp. `255/255` in the two `src/main.py` normalizers, but to
all `15 = ⌊255/16⌋` in the `src/draw_digits/main.py` normalizer. -/
theorem normalizer_bounds (bytes : List Nat) (n : Nat) :
    (∀ f ∈ normalizeSK bytes, 0 ≤ f ∧ f ≤ 255 / 16)
    ∧ (∀ f ∈ normalizeTF bytes, 0 ≤ f ∧ f ≤ 255 / 255)
    ∧ (∀ f ∈ normalizeDD bytes, 0 ≤ f ∧ f ≤ 255 / 16)
    ∧ normalizeSK (List.replicate n 255) = List.replicate n 0
    ∧ normalizeTF (List.replicate n 255) = List.replicate n 0
    ∧ normalizeDD (List.replicate n 255) = List.replicate n 0
    ∧ normalizeSK (List.replicate n 0) = List.replicate n ((255 : ℚ) / 16)
    ∧ normalizeTF (List.replicate n 0) = List.replicate n ((255 : ℚ) / 255)
    ∧ normalizeDD (List.replicate n 0) = List.replicate n (15 : ℚ) := by
  have h255 : pyInvMask 255 = 0 := by decide
  have h0 : pyInvMask 0 = 255 := by decide
  refine ⟨fun f hf => ⟨normalizeSK_nonneg bytes f hf, normalizeSK_le bytes f hf⟩,
    fun f hf => ⟨normalizeTF_nonneg bytes f hf, normalizeTF_le bytes f hf⟩,
    fun f hf => ⟨normalizeDD_nonneg bytes f hf, normalizeDD_le bytes f hf⟩,
    ?_, ?_, ?_, ?_, ?_, ?_⟩ <;>
    simp only [normalizeSK, normalizeTF, normalizeDD, List.map_replicate, h255, h0] <;>
    norm_num

/-- Witness for the amended C5 at a concrete component. -/
theorem normalizer_bounds_witness :
    (0 ≤ (pyInvMask 7 : ℚ) / 16 ∧ (pyInvMask 7 : ℚ) / 16 ≤ 255 / 16)
    ∧ normalizeDD (List.replicate 2 0) = List.replicate 2 (15 : ℚ) :=
  ⟨(normalizer_bounds [7] 2).1 ((pyInvMask 7 : ℚ) / 16) (by simp [normalizeSK]),
   (normalizer_bounds [7] 2).2.2.2.2.2.2.2.2⟩

/-! ## Claim theorems: worker loop and listener -/

/-- C4: when the normalized FeatureVector is all-zero, both the
statistical path and the Worker Loop skip the backend (zero
invocations) and produce the "no prediction" sentinel — the worker
replying `(previewBitmap, None)`; on any other input the backend is
invoked once and its concrete output returned. -/
theorem empty_input_suppression (predict : List ℚ → List ℚ)
    (resize28 : Surface → Surface) (gray : Surface → List Nat)
    (clf : List ℚ → Nat) (img : Surface) :
    ((∀ f ∈ normalizeTF (gray (resize28 img)), f = 0) →
      tfWorkerStep predict resize28 gray img = ((resize28 img, none), 0))
    ∧ ((∃ f ∈ normalizeTF (gray (resize28 img)), f ≠ 0) →
      tfWorkerStep predict resize28 gray img =
        ((resize28 img, some (predict (normalizeTF (gray (resize28 img))))), 1))
    ∧ (∀ floats : List ℚ,
        ((∀ f ∈ floats, f = 0) → sklearnInfer clf floats = (none, 0))
        ∧ ((∃ f ∈ floats, f ≠ 0) →
            sklearnInfer clf floats = (some (clf floats), 1))) := by
  refine ⟨?_, ?_, ?_⟩
  · intro hz
    have hany : ((normalizeTF (gray (resize28 img))).any fun f => decide (0 < f)) = false := by
      rw [List.any_eq_false]
      intro f hf
      rw [hz f hf]
      simp
    simp [tfWorkerStep, hany]
  · rintro ⟨f, hf, hne⟩
    have hpos : (0 : ℚ) < f := lt_of_le_of_ne (normalizeTF_nonneg _ f hf) (Ne.symm hne)
    have hany : ((normalizeTF (gray (resize28 img))).any fun f => decide (0 < f)) = true := by
      simp only [List.any_eq_true, decide_eq_true_eq]
      exact ⟨f, hf, hpos⟩
    simp [tfWorkerStep, hany]
  · intro floats
    constructor
    · intro hz
      have hall : (floats.all fun f => decide (f = 0)) = true := by
        simp only [List.all_eq_true, decide_eq_true_eq]
        exact hz
      simp [sklearnInfer, hall]
    · rintro ⟨f, hf, hne⟩
      have hall : (floats.all fun f => decide (f = 0)) = false := by
        simp only [List.all_eq_false]
        exact ⟨f, hf, by simpa using hne⟩
      simp [sklearnInfer, hall]

/-- Witness for C4: an all-white 1×1 snapshot normalizes to the
all-zero vector, so the worker replies `(preview, None)` with zero
backend calls, and the statistical path shows "no prediction". -/
theorem empty_input_suppression_witness :
    tfWorkerStep (fun _ => [1]) id (fun s => s.bytes) ⟨1, 1, [255]⟩ =
      ((⟨1, 1, [255]⟩, none), 0)
    ∧ sklearnInfer (fun _ => 0) (normalizeSK [255]) = (none, 0) := by
  have h255 : pyInvMask 255 = 0 := by decide
  have hz : ∀ f ∈ normalizeTF [255], f = 0 := by
    simp only [normalizeTF, List.map, h255]
    norm_num
  have hz' : ∀ f ∈ normalizeSK [255], f = 0 := by
    simp only [normalizeSK, List.map, h255]
    norm_num
  exact ⟨(empty_input_suppression (fun _ => [1]) id (fun s => s.bytes)
            (fun _ => 0) ⟨1, 1, [255]⟩).1 hz,
         ((empty_input_suppression (fun _ => [1]) id (fun s => s.bytes)
            (fun _ => 0) ⟨1, 1, [255]⟩).2.2 (normalizeSK [255])).1 hz'⟩

/-- C2: on the termination sentinel the Worker Loop exits its receive
loop, sends exactly one final sentinel acknowledgment (`none`, after
the per-snapshot replies, all of which are `some`), and terminates —
receiving `queued.length + 1` messages and processing nothing that
follows the sentinel, whatever `rest` is; and `on_shutdown`'s trace
(send sentinel, then `join` — which returns because the run is a total
function of the trace) is exactly the `rest = []` instance. -/
theorem worker_shutdown_handshake (predict : List ℚ → List ℚ)
    (resize28 : Surface → Surface) (gray : Surface → List Nat)
    (queued : List Surface) (rest : List (Option Surface)) :
    tfWorkerRun predict resize28 gray (queued.map some ++ none :: rest) =
      (queued.map (fun img => some (tfWorkerStep predict resize28 gray img).1) ++ [none],
       (queued.map (fun img => (tfWorkerStep predict resize28 gray img).2)).sum,
       queued.length + 1)
    ∧ tfWorkerRun predict resize28 gray (on_shutdown queued) =
      (queued.map (fun img => some (tfWorkerStep predict resize28 gray img).1) ++ [none],
       (queued.map (fun img => (tfWorkerStep predict resize28 gray img).2)).sum,
       queued.length + 1) := by
  have key : ∀ q : List Surface, ∀ r : List (Option Surface),
      tfWorkerRun predict resize28 gray (q.map some ++ none :: r) =
        (q.map (fun img => some (tfWorkerStep predict resize28 gray img).1) ++ [none],
         (q.map (fun img => (tfWorkerStep predict resize28 gray img).2)).sum,
         q.length + 1) := by
    intro q
    induction q with
    | nil => intro r; simp [tfWorkerRun]
    | cons img q ih =>
        intro r
        simp only [List.map_cons, List.cons_append, tfWorkerRun, List.append_eq, ih r,
          List.sum_cons, List.length_cons]
  exact ⟨key queued rest, key queued []⟩

/-- C9: started with a `model_engine` other than `"tf"` and `"ov"`,
`_tf_worker` returns at once: zero messages received from the inbound
pipe and zero messages sent on the outbound pipe — in particular no
final sentinel acknowledgment, so a waiter on the handshake never
receives one. -/
theorem worker_unknown_engine (tfPredict ovPredict : List ℚ → List ℚ)
    (resize28 : Surface → Surface) (gray : Surface → List Nat)
    (model_engine : String) (inbox : List (Option Surface))
    (h1 : model_engine ≠ "tf") (h2 : model_engine ≠ "ov") :
    tfWorker tfPredict ovPredict resize28 gray model_engine inbox = ([], 0, 0) := by
  simp [tfWorker, h1, h2]

/-- Witness for C9 at the concrete engine string `"onnx"`: even with
the sentinel queued, no acknowledgment is produced. -/
theorem worker_unknown_engine_witness :
    tfWorker (fun _ => []) (fun _ => []) id (fun _ => []) "onnx" [none] = ([], 0, 0) :=
  worker_unknown_engine (fun _ => []) (fun _ => []) id (fun _ => []) "onnx" [none]
    (by decide) (by decide)

/-- C7: the Result Listener's loop (each tick being one bounded
`poll(0.01)` of the outbound pipe with the stop flag re-read first, so
a cleared flag is observed within one poll interval) terminates exactly
when some tick observes the stop flag cleared or receives the worker's
termination sentinel, and the results it marshals to the UI task queue
are exactly the results received before that point, in order — it
performs no other UI action. -/
theorem listener_contract (tr : List ListenerTick) :
    (tf_result_waiter tr).2 = tr.any listenerExits
    ∧ (tf_result_waiter tr).1 =
        (tr.takeWhile (fun t => !listenerExits t)).filterMap tickResult := by
  induction tr with
  | nil => simp [tf_result_waiter]
  | cons t rest ih =>
      obtain ⟨b, m⟩ := t
      cases b with
      | false => simp [tf_result_waiter, listenerExits]
      | true =>
          cases m with
          | none =>
              simp [tf_result_waiter, listenerExits, tickResult, ih.1, ih.2]
          | some m' =>
              cases m' with
              | none => simp [tf_result_waiter, listenerExits, tickResult]
              | some r =>
                  simp [tf_result_waiter, listenerExits, tickResult, ih.1, ih.2]

/-! ## Coordinator lemmas -/

theorem update_prediction_surface (s : UIState) :
    (update_prediction s).1.surface = s.surface := by
  unfold update_prediction get_image_data
  by_cases hsk : s.skPending <;> by_cases htf : s.tfPending <;>
    cases hsf : s.surface <;> simp [hsk, htf, hsf]

theorem update_prediction_skPending (s : UIState) :
    (update_prediction s).1.skPending = true := by
  unfold update_prediction get_image_data
  by_cases hsk : s.skPending <;> by_cases htf : s.tfPending <;>
    cases hsf : s.surface <;> simp [hsk, htf, hsf]

theorem update_prediction_skSched (s : UIState) :
    (update_prediction s).1.skSched =
      (if s.skPending then s.skSched else s.skSched + 1) := by
  unfold update_prediction get_image_data
  by_cases hsk : s.skPending <;> by_cases htf : s.tfPending <;>
    cases hsf : s.surface <;> simp [hsk, htf, hsf]

theorem update_prediction_of_tfPending (s : UIState) (h : s.tfPending = true) :
    (update_prediction s).1.tfPending = true
    ∧ (update_prediction s).1.tfInFlight = s.tfInFlight
    ∧ (update_prediction s).2 = [] := by
  unfold update_prediction get_image_data
  by_cases hsk : s.skPending <;> simp [hsk, h]

theorem update_prediction_of_surface_none (s : UIState) (h : s.surface = none)
    (htf : s.tfPending = false) :
    (update_prediction s).1.tfPending = false
    ∧ (update_prediction s).1.tfInFlight = s.tfInFlight
    ∧ (update_prediction s).2 = [] := by
  unfold update_prediction get_image_data
  by_cases hsk : s.skPending <;> simp [hsk, htf, h]

theorem update_prediction_send (s : UIState) (img : Surface)
    (h : s.tfPending = false) (hs : s.surface = some img) :
    (update_prediction s).1.tfPending = true
    ∧ (update_prediction s).1.tfInFlight = s.tfInFlight + 1
    ∧ (update_prediction s).2 = [img] := by
  unfold update_prediction get_image_data
  by_cases hsk : s.skPending <;> simp [hsk, h, hs]

theorem update_prediction_sends_mem (s : UIState) :
    ∀ img ∈ (update_prediction s).2, s.surface = some img := by
  unfold update_prediction get_image_data
  by_cases hsk : s.skPending <;> by_cases htf : s.tfPending <;>
    cases hsf : s.surface <;> simp [hsk, htf, hsf]

theorem update_prediction_tfInFlight_le (s : UIState) :
    (update_prediction s).1.tfInFlight ≤ s.tfInFlight + 1 := by
  unfold update_prediction get_image_data
  by_cases hsk : s.skPending <;> by_cases htf : s.tfPending <;>
    cases hsf : s.surface <;> simp [hsk, htf, hsf]

theorem run_sk_callback_tf (clf : List ℚ → Nat) (gray8 : Surface → List Nat)
    (s : UIState) :
    (run_sk_callback clf gray8 s).1.tfPending = s.tfPending
    ∧ (run_sk_callback clf gray8 s).1.tfInFlight = s.tfInFlight
    ∧ (run_sk_callback clf gray8 s).1.surface = s.surface
    ∧ (run_sk_callback clf gray8 s).2.sends = [] := by
  unfold run_sk_callback get_image_data
  cases hsf : s.surface <;> simp [hsf, noOut]

/-- The coordinator invariant: at most one neural request in flight,
the neural pending flag tracking it exactly; at most one sklearn idle
callback queued, only while the sklearn flag is pending; and the
surface, when present, has positive dimensions. -/
def Inv (s : UIState) : Prop :=
  s.tfInFlight ≤ 1 ∧ (s.tfPending = true ↔ s.tfInFlight = 1) ∧
  s.skSched ≤ 1 ∧ (1 ≤ s.skSched → s.skPending = true) ∧
  (∀ img, s.surface = some img → 0 < img.width ∧ 0 < img.height)

theorem Inv_update (s : UIState) (h : Inv s) : Inv (update_prediction s).1 := by
  obtain ⟨h1, h2, h3, h4, h5⟩ := h
  unfold update_prediction get_image_data
  by_cases hsk : s.skPending <;> by_cases htf : s.tfPending <;>
    cases hsf : s.surface <;>
    simp_all [Inv] <;> omega

theorem Inv_step (clf : List ℚ → Nat) (gray8 : Surface → List Nat)
    (s : UIState) (e : UIEvent) (h : Inv s) (hv : validEv s e) :
    Inv (uiStep clf gray8 s e).1 := by
  obtain ⟨h1, h2, h3, h4, h5⟩ := h
  cases e with
  | resize w hgt =>
      unfold uiStep
      by_cases hwh : w ≤ 0 ∨ hgt ≤ 0
      · simp only [hwh, if_true]
        exact ⟨h1, h2, h3, h4, h5⟩
      · simp only [hwh, if_false]
        apply Inv_update
        refine ⟨h1, h2, h3, h4, ?_⟩
        intro img himg
        simp only [Option.some.injEq] at himg
        subst himg
        exact ⟨(by omega : (0 : Int) < w), (by omega : (0 : Int) < hgt)⟩
  | dragUpdate paint =>
      unfold uiStep
      cases hsf : s.surface with
      | none =>
          apply Inv_update
          exact ⟨h1, h2, h3, h4, h5⟩
      | some img =>
          apply Inv_update
          refine ⟨h1, h2, h3, h4, ?_⟩
          intro img' himg'
          simp only [Option.some.injEq] at himg'
          subst himg'
          exact h5 img hsf
  | clearClicked =>
      unfold uiStep
      cases hsf : s.surface with
      | none => exact ⟨h1, h2, h3, h4, fun img himg => h5 img (hsf ▸ himg)⟩
      | some img =>
          apply Inv_update
          refine ⟨h1, h2, h3, h4, ?_⟩
          intro img' himg'
          simp only [Option.some.injEq] at himg'
          subst himg'
          exact h5 img hsf
  | runSk =>
      unfold uiStep run_sk_callback get_image_data
      cases hsf : s.surface with
      | none =>
          refine ⟨h1, h2, by simp; omega, ?_, ?_⟩
          · simp
            intro hge
            exact h4 (by omega)
          · simp [hsf]
      | some img =>
          refine ⟨h1, h2, by simp; omega, ?_, ?_⟩
          · simp
            omega
          · simp [hsf]
            exact h5 img hsf
  | tfResult =>
      have hfl : s.tfInFlight = 1 := by
        simp only [validEv] at hv
        omega
      unfold uiStep
      refine ⟨by simp; omega, by simp; omega, h3, h4, h5⟩

theorem reach_inv (clf : List ℚ → Nat) (gray8 : Surface → List Nat)
    (s : UIState) (h : Reach clf gray8 s) : Inv s := by
  induction h with
  | init => refine ⟨by simp [initState], by simp [initState], by simp [initState],
      by simp [initState], by simp [initState]⟩
  | step s e _ hv ih => exact Inv_step clf gray8 s e ih hv

/-- Helper for C6: once the sklearn flag is pending, any number of
further `update_prediction` calls leave the flag set and schedule
nothing new. -/
theorem update_prediction_iterate_of_pending (s : UIState)
    (h : s.skPending = true) (n : Nat) :
    ((fun t => (update_prediction t).1)^[n] s).skSched = s.skSched
    ∧ ((fun t => (update_prediction t).1)^[n] s).skPending = true := by
  induction n generalizing s with
  | zero => exact ⟨rfl, h⟩
  | succ m ih =>
      rw [Function.iterate_succ_apply]
      have h1 := update_prediction_skSched s
      rw [h, if_pos rfl] at h1
      obtain ⟨ih1, ih2⟩ := ih (update_prediction s).1 (update_prediction_skPending s)
      exact ⟨ih1.trans h1, ih2⟩

/-! ## Claim theorems: the prediction coordinator -/

/-- C1: along every valid event sequence, at most one neural-path
request is in flight (`tfInFlight ≤ 1`, with the PendingFlag tracking
it exactly); the flag is set when `update_prediction` sends a snapshot
and a send never happens while the flag is set; and while a request is
outstanding, every event other than the result's arrival — drawing
updates, resizes, clears, the sklearn callback — leaves the flag set
and sends nothing, so the flag is cleared only by `_on_tf_prediction`
when the result comes back from the Result Listener. -/
theorem tf_pending_single_flight (clf : List ℚ → Nat) (gray8 : Surface → List Nat)
    (s : UIState) (hs : Reach clf gray8 s) :
    (s.tfInFlight ≤ 1 ∧ (s.tfPending = true ↔ s.tfInFlight = 1))
    ∧ (∀ img, (update_prediction s).2 = [img] → (update_prediction s).1.tfPending = true)
    ∧ (s.tfPending = true → (update_prediction s).2 = [])
    ∧ (s.tfInFlight = 1 →
        (∀ w hgt, (uiStep clf gray8 s (.resize w hgt)).1.tfPending = true
          ∧ (uiStep clf gray8 s (.resize w hgt)).2.sends = [])
        ∧ (∀ p, (uiStep clf gray8 s (.dragUpdate p)).1.tfPending = true
          ∧ (uiStep clf gray8 s (.dragUpdate p)).2.sends = [])
        ∧ ((uiStep clf gray8 s .clearClicked).1.tfPending = true
          ∧ (uiStep clf gray8 s .clearClicked).2.sends = [])
        ∧ (uiStep clf gray8 s .runSk).1.tfPending = true) := by
  obtain ⟨h1, h2, h3, h4, h5⟩ := reach_inv clf gray8 s hs
  have send_pending : ∀ t : UIState, ∀ img, (update_prediction t).2 = [img] →
      (update_prediction t).1.tfPending = true := by
    intro t img hsend
    by_cases htf : t.tfPending = true
    · exact (update_prediction_of_tfPending t htf).1
    · cases hsf : t.surface with
      | none =>
          have := (update_prediction_of_surface_none t hsf
            (by simpa using htf)).2.2
          rw [this] at hsend
          exact absurd hsend (by simp)
      | some i => exact (update_prediction_send t i (by simpa using htf) hsf).1
  have pending_step : ∀ t : UIState, t.tfPending = true →
      ((update_prediction t).1.tfPending = true ∧ (update_prediction t).2 = []) := by
    intro t htf
    exact ⟨(update_prediction_of_tfPending t htf).1,
      (update_prediction_of_tfPending t htf).2.2⟩
  refine ⟨⟨h1, h2⟩, send_pending s, fun htf => (pending_step s htf).2, ?_⟩
  intro hfl
  have hpend : s.tfPending = true := h2.mpr hfl
  refine ⟨?_, ?_, ?_, ?_⟩
  · intro w hgt
    unfold uiStep
    by_cases hwh : w ≤ 0 ∨ hgt ≤ 0
    · simp only [hwh, if_true]
      exact ⟨hpend, rfl⟩
    · simp only [hwh, if_false]
      exact pending_step _ hpend
  · intro p
    unfold uiStep
    cases hsf : s.surface <;> exact pending_step _ hpend
  · unfold uiStep
    cases hsf : s.surface with
    | none => exact ⟨hpend, rfl⟩
    | some img => exact pending_step _ hpend
  · exact ((run_sk_callback_tf clf gray8 s).1).trans hpend

/-- Witness for C1: in the state reached from startup by one resize to
1×1 (which sends the initial snapshot), a drawing update sends nothing
and leaves the neural flag set. -/
theorem tf_pending_single_flight_witness :
    ((uiStep (fun _ => 0) (fun _ => []) initState (.resize 1 1)).1.tfInFlight ≤ 1)
    ∧ (uiStep (fun _ => 0) (fun _ => [])
        (uiStep (fun _ => 0) (fun _ => []) initState (.resize 1 1)).1
        (.dragUpdate id)).2.sends = [] := by
  have hreach : Reach (fun _ => 0) (fun _ => [])
      (uiStep (fun _ => 0) (fun _ => []) initState (.resize 1 1)).1 :=
    Reach.step initState (.resize 1 1) Reach.init trivial
  have hfl : (uiStep (fun _ => 0) (fun _ => []) initState (.resize 1 1)).1.tfInFlight = 1 := by
    simp [uiStep, update_prediction, get_image_data, initState]
  exact ⟨(tf_pending_single_flight (fun _ => 0) (fun _ => []) _ hreach).1.1,
    (((tf_pending_single_flight (fun _ => 0) (fun _ => []) _ hreach).2.2.2 hfl).2.1 id).2⟩

/-- C6: `update_prediction` always leaves the statistical flag set; it
schedules exactly one new deferred callback when the flag was clear and
none when it was already set (so `n ≥ 1` rapid updates schedule exactly
one callback); and the callback, run with a surface present, updates
the label presentation per `sklearnInfer` (invoking the classifier
exactly when the vector is not all zero) and then clears the flag. -/
theorem statistical_coalescing (clf : List ℚ → Nat) (gray8 : Surface → List Nat)
    (s : UIState) :
    ((update_prediction s).1.skPending = true)
    ∧ (s.skPending = false → (update_prediction s).1.skSched = s.skSched + 1)
    ∧ (s.skPending = true → (update_prediction s).1.skSched = s.skSched)
    ∧ (∀ img, s.surface = some img →
        (uiStep clf gray8 s .runSk).1.skPending = false
        ∧ (uiStep clf gray8 s .runSk).1.skSched = s.skSched - 1
        ∧ (uiStep clf gray8 s .runSk).2.skLabel =
            some (sklearnInfer clf (normalizeSK (gray8 img))).1
        ∧ (uiStep clf gray8 s .runSk).2.skInfers =
            (sklearnInfer clf (normalizeSK (gray8 img))).2)
    ∧ (s.skPending = false → ∀ n, 1 ≤ n →
        ((fun t => (update_prediction t).1)^[n] s).skSched = s.skSched + 1
        ∧ ((fun t => (update_prediction t).1)^[n] s).skPending = true) := by
  refine ⟨update_prediction_skPending s, ?_, ?_, ?_, ?_⟩
  · intro h
    rw [update_prediction_skSched s, h]
    simp
  · intro h
    rw [update_prediction_skSched s, h]
    simp
  · intro img himg
    unfold uiStep run_sk_callback get_image_data
    simp [himg]
  · intro h n hn
    obtain ⟨m, rfl⟩ := Nat.exists_eq_add_of_le hn
    rw [Nat.add_comm, Function.iterate_add_apply, Function.iterate_one]
    have h1 := update_prediction_skSched s
    rw [h, if_neg (by simp)] at h1
    obtain ⟨i1, i2⟩ := update_prediction_iterate_of_pending (update_prediction s).1
      (update_prediction_skPending s) m
    exact ⟨i1.trans h1, i2⟩

/-- Witness for C6: three rapid updates from the initial state schedule
exactly one deferred callback. -/
theorem statistical_coalescing_witness :
    ((fun t => (update_prediction t).1)^[3] initState).skSched = initState.skSched + 1
    ∧ ((fun t => (update_prediction t).1)^[3] initState).skPending = true :=
  (statistical_coalescing (fun _ => 0) (fun _ => []) initState).2.2.2.2 rfl 3
    (by norm_num)

/-- C8: from any reachable coordinator state, every snapshot any valid
event puts on the request channel has positive width and positive
height — non-positive dimensions are rejected at the `_on_resize`
boundary before a surface (and hence a snapshot) can exist, so a
malformed snapshot never reaches the worker. -/
theorem sent_snapshots_positive_dims (clf : List ℚ → Nat) (gray8 : Surface → List Nat)
    (s : UIState) (hs : Reach clf gray8 s) (e : UIEvent) (hv : validEv s e) :
    ∀ img ∈ (uiStep clf gray8 s e).2.sends, 0 < img.width ∧ 0 < img.height := by
  obtain ⟨h1, h2, h3, h4, h5⟩ := reach_inv clf gray8 s hs
  cases e with
  | resize w hgt =>
      unfold uiStep
      by_cases hwh : w ≤ 0 ∨ hgt ≤ 0
      · simp [hwh, noOut]
      · simp only [hwh, if_false]
        intro img hmem
        have := update_prediction_sends_mem _ img hmem
        simp only [Option.some.injEq] at this
        subst this
        exact ⟨(by omega : (0 : Int) < w), (by omega : (0 : Int) < hgt)⟩
  | dragUpdate paint =>
      unfold uiStep
      cases hsf : s.surface with
      | none =>
          intro img hmem
          have := update_prediction_sends_mem _ img hmem
          rw [hsf] at this
          exact absurd this (by simp)
      | some i =>
          intro img hmem
          have := update_prediction_sends_mem _ img hmem
          simp only [Option.some.injEq] at this
          subst this
          exact h5 i hsf
  | clearClicked =>
      unfold uiStep
      cases hsf : s.surface with
      | none => simp [noOut]
      | some i =>
          intro img hmem
          have := update_prediction_sends_mem _ img hmem
          simp only [Option.some.injEq] at this
          subst this
          exact h5 i hsf
  | runSk =>
      unfold uiStep
      intro img hmem
      rw [(run_sk_callback_tf clf gray8 s).2.2.2] at hmem
      exact absurd hmem (by simp)
  | tfResult =>
      intro img hmem
      exact absurd hmem (by simp [uiStep, noOut])

/-- Witness for C8: the snapshot sent by the very first 2×2 resize has
positive dimensions. -/
theorem sent_snapshots_positive_dims_witness :
    0 < (Surface.mk 2 2 (blankBytes 2 2)).width
    ∧ 0 < (Surface.mk 2 2 (blankBytes 2 2)).height :=
  sent_snapshots_positive_dims (fun _ => 0) (fun _ => []) initState Reach.init
    (.resize 2 2) trivial ⟨2, 2, blankBytes 2 2⟩
    (by simp [uiStep, update_prediction, get_image_data, initState])

/-- Helper for C10: from a state whose sklearn flag is pending with no
callback queued, every valid event preserves that situation and
performs no statistical inference. -/
theorem stuck_step (clf : List ℚ → Nat) (gray8 : Surface → List Nat)
    (s : UIState) (e : UIEvent) (hp : s.skPending = true) (h0 : s.skSched = 0)
    (hv : validEv s e) :
    (uiStep clf gray8 s e).1.skPending = true
    ∧ (uiStep clf gray8 s e).1.skSched = 0
    ∧ (uiStep clf gray8 s e).2.skInfers = 0 := by
  have up_pres : ∀ t : UIState, t.skPending = true → t.skSched = 0 →
      (update_prediction t).1.skPending = true ∧ (update_prediction t).1.skSched = 0 := by
    intro t ht ht0
    refine ⟨update_prediction_skPending t, ?_⟩
    rw [update_prediction_skSched t, ht, if_pos rfl, ht0]
  cases e with
  | resize w hgt =>
      unfold uiStep
      by_cases hwh : w ≤ 0 ∨ hgt ≤ 0
      · simp only [hwh, if_true]
        exact ⟨hp, h0, rfl⟩
      · simp only [hwh, if_false]
        exact ⟨(up_pres { s with surface := some ⟨w, hgt, blankBytes w hgt⟩ } hp h0).1,
          (up_pres { s with surface := some ⟨w, hgt, blankBytes w hgt⟩ } hp h0).2, trivial⟩
  | dragUpdate paint =>
      unfold uiStep
      cases hsf : s.surface with
      | none => exact ⟨(up_pres s hp h0).1, (up_pres s hp h0).2, rfl⟩
      | some img =>
          exact ⟨(up_pres { s with
              surface := some ⟨img.width, img.height, paint img.bytes⟩ } hp h0).1,
            (up_pres { s with
              surface := some ⟨img.width, img.height, paint img.bytes⟩ } hp h0).2, rfl⟩
  | clearClicked =>
      unfold uiStep
      cases hsf : s.surface with
      | none => exact ⟨hp, h0, rfl⟩
      | some img =>
          exact ⟨(up_pres { s with
              surface := some ⟨img.width, img.height, blankBytes img.width img.height⟩ } hp h0).1,
            (up_pres { s with
              surface := some ⟨img.width, img.height, blankBytes img.width img.height⟩ } hp h0).2, rfl⟩
  | runSk =>
      simp only [validEv, h0] at hv
      omega
  | tfResult => exact ⟨hp, h0, rfl⟩

/-- Helper for C10: the stuck situation persists along any valid event
sequence, with zero statistical inferences performed. -/
theorem stuck_run (clf : List ℚ → Nat) (gray8 : Surface → List Nat)
    (evs : List UIEvent) :
    ∀ s : UIState, s.skPending = true → s.skSched = 0 →
      ValidSeq clf gray8 s evs →
      (runEvents clf gray8 s evs).1.skPending = true
      ∧ (runEvents clf gray8 s evs).1.skSched = 0
      ∧ (runEvents clf gray8 s evs).2 = 0 := by
  induction evs with
  | nil =>
      intro s hp h0 _
      exact ⟨hp, h0, rfl⟩
  | cons e evs ih =>
      intro s hp h0 hvs
      cases hvs with
      | cons _ _ _ hv htail =>
          obtain ⟨p1, p2, p3⟩ := stuck_step clf gray8 s e hp h0 hv
          obtain ⟨q1, q2, q3⟩ := ih _ p1 p2 htail
          refine ⟨q1, q2, ?_⟩
          simp only [runEvents, p3, q3]

/-- C10: if the snapshot getter yields `None` when the deferred
statistical callback runs, the callback returns with the statistical
PendingFlag unchanged (hence still set) and no inference or label
update; from the resulting state — flag set, nothing queued — every
valid continuation of the run keeps the flag set, schedules nothing,
and performs zero statistical inferences.  The neural path in the same
situation resets its flag before returning and sends nothing. -/
theorem stuck_sklearn_pending (clf : List ℚ → Nat) (gray8 : Surface → List Nat)
    (s : UIState) :
    (s.surface = none →
      (uiStep clf gray8 s .runSk).1.skPending = s.skPending
      ∧ (uiStep clf gray8 s .runSk).1.skSched = s.skSched - 1
      ∧ (uiStep clf gray8 s .runSk).2 = noOut)
    ∧ (s.skPending = true → s.skSched = 0 →
        ∀ evs, ValidSeq clf gray8 s evs →
          (runEvents clf gray8 s evs).1.skPending = true
          ∧ (runEvents clf gray8 s evs).1.skSched = 0
          ∧ (runEvents clf gray8 s evs).2 = 0)
    ∧ (s.surface = none → s.tfPending = false →
        (update_prediction s).1.tfPending = false ∧ (update_prediction s).2 = []) := by
  refine ⟨?_, ?_, ?_⟩
  · intro hsf
    unfold uiStep run_sk_callback get_image_data
    simp [hsf]
  · intro hp h0 evs hvs
    exact stuck_run clf gray8 evs s hp h0 hvs
  · intro hsf htf
    exact ⟨(update_prediction_of_surface_none s hsf htf).1,
      (update_prediction_of_surface_none s hsf htf).2.2⟩

/-- Witness for C10: from the stuck state (no surface, sklearn flag
set, nothing queued), a drag update followed by a Clear click performs
no statistical inference and leaves the flag set; and the neural path
with no surface resets its own flag. -/
theorem stuck_sklearn_pending_witness :
    (runEvents (fun _ => 0) (fun _ => []) ⟨none, true, 0, false, 0⟩
        [.dragUpdate id, .clearClicked]).1.skPending = true
    ∧ (runEvents (fun _ => 0) (fun _ => []) ⟨none, true, 0, false, 0⟩
        [.dragUpdate id, .clearClicked]).2 = 0
    ∧ (update_prediction ⟨none, true, 0, false, 0⟩).1.tfPending = false :=
  ⟨((stuck_sklearn_pending (fun _ => 0) (fun _ => []) ⟨none, true, 0, false, 0⟩).2.1
      rfl rfl [.dragUpdate id, .clearClicked]
      (ValidSeq.cons _ _ _ trivial (ValidSeq.cons _ _ _ trivial (ValidSeq.nil _)))).1,
   ((stuck_sklearn_pending (fun _ => 0) (fun _ => []) ⟨none, true, 0, false, 0⟩).2.1
      rfl rfl [.dragUpdate id, .clearClicked]
      (ValidSeq.cons _ _ _ trivial (ValidSeq.cons _ _ _ trivial (ValidSeq.nil _)))).2.2,
   ((stuck_sklearn_pending (fun _ => 0) (fun _ => []) ⟨none, true, 0, false, 0⟩).2.2
      rfl rfl).1⟩

end MlDigits
